import Mathlib

/-!
Verification of the MQTT client embedded in this repository
(`middleware/network/MQTT/code/umqttsimple.py` and `umqttrobust.py`),
running on MicroPython v1.23.0.

The byte-stream transport (a socket) is modelled as part of an explicit
state record `St`: an input queue of bytes to be read, an output log of
bytes written, and flags describing the transport condition.  Stateful
Python methods become functions in a state-plus-error monad `M`; a raised
Python exception becomes an `Err` result that carries the state at the
moment of the raise (Python exceptions do not roll back side effects).

Machine-level notes reflected in the model:
* `self.pid` is a Python `int`: incrementing it never wraps.
* MicroPython's `ustruct.pack`/`pack_into` do not range-check integer
  values; a value too large for the format code is silently truncated to
  the low bits (documented CPython difference).  `pack16`/the `% 256`
  length byte in `subscribe` encode that truncation.
-/

namespace UMqtt

/-- Python exceptions that the MQTT client code can raise. -/
inductive Err where
  /-- `OSError(code)` - transport-level error. -/
  | osError (code : Int)
  /-- `MQTTException(code)` - protocol-semantic error. -/
  | mqttException (code : Nat)
  /-- a failed `assert` statement. -/
  | assertionError
  /-- calling the message callback when none is registered (`self.cb = None`). -/
  | typeError
  /-- indexing into a shorter-than-expected read result (`IndexError`). -/
  | shortRead
  /-- marker for a blocking read on a stream with no pending data: the real
      program would block forever here; no theorem below reaches this case. -/
  | blockedForever
deriving Repr, DecidableEq

/-- Client plus transport state.  `input` is the byte stream still to be
read from the socket; `output` is the log of every byte written so far. -/
structure St where
  /-- `self.pid`, a Python int (unbounded). -/
  pid : Nat
  /-- bytes the server has sent and the client has not yet read. -/
  input : List Nat
  /-- when `input` is exhausted: `true` means the peer closed the
      connection (a read yields `b""`), `false` means no data is pending
      (a non-blocking read yields `None`). -/
  atEof : Bool
  /-- socket blocking mode (`sock.setblocking`). -/
  blocking : Bool
  /-- every byte written to the socket, in order. -/
  output : List Nat
  /-- whether `sock.close()` has been called. -/
  closed : Bool
  /-- a transport in this condition raises `OSError` on every write. -/
  writeFails : Bool
  /-- whether `set_callback` has registered a message callback. -/
  hasCb : Bool
  /-- `(topic, msg)` pairs delivered to the callback, in order. -/
  received : List (List Nat × List Nat)
deriving Repr, DecidableEq

/-- Result of running one client operation: Python either returns a value
or raises; side effects performed before the raise persist. -/
inductive Res (α : Type) where
  | ok (a : α) (s : St)
  | err (e : Err) (s : St)
deriving Repr, DecidableEq

/-- The exception component of a run, if any. -/
def Res.errOf? {α} : Res α → Option Err
  | .ok _ _ => none
  | .err e _ => some e

/-- The state component of a run (Python keeps side effects on a raise). -/
def Res.stOf {α} : Res α → St
  | .ok _ s => s
  | .err _ s => s

/-- State-plus-exception monad for the client operations. -/
def M (α : Type) : Type := St → Res α

def M.pure {α} (a : α) : M α := fun s => .ok a s

def M.bind {α β} (x : M α) (f : α → M β) : M β := fun s =>
  match x s with
  | .ok a s' => f a s'
  | .err e s' => .err e s'

instance : Monad M where
  pure := M.pure
  bind := M.bind

/-- raising a Python exception. -/
def M.throw {α} (e : Err) : M α := fun s => .err e s

/-- reading the object state (`self`). -/
def M.getSt : M St := fun s => .ok s s

/-- updating the object state. -/
def M.modifySt (f : St → St) : M Unit := fun s => .ok () (f s)

/-! ## Transport primitives (the external socket collaborator) -/

/-- Outcome of `self.sock.read(1)`. -/
inductive R1 where
  /-- one byte was available. -/
  | byte (b : Nat)
  /-- non-blocking socket, no data pending: Python returns `None`. -/
  | noData
  /-- peer closed the connection: Python returns `b""`. -/
  | closedEnd
deriving Repr, DecidableEq

/-- `self.sock.read(1)` at the head of the modelled stream. -/
def read1 : M R1 := fun s =>
  match s.input with
  | b :: rest => .ok (.byte b) { s with input := rest }
  | [] =>
    if s.atEof then .ok .closedEnd s
    else if s.blocking then .err .blockedForever s
    else .ok .noData s

/-- `self.sock.read(n)` in a context where the caller immediately indexes
all `n` bytes of the result: a shorter read would raise `IndexError`,
modelled as `Err.shortRead`. -/
def readBytes (n : Nat) : M (List Nat) := fun s =>
  if n ≤ s.input.length then
    .ok (s.input.take n) { s with input := s.input.drop n }
  else .err .shortRead s

/-- `self.sock.write(bytes)`. -/
def sockWrite (bs : List Nat) : M Unit := fun s =>
  if s.writeFails then .err (.osError 104) s
  else .ok () { s with output := s.output ++ bs }

/-- big-endian 16-bit encoding `ustruct.pack("!H", n)`: MicroPython
truncates the value to its low 16 bits instead of raising. -/
def pack16 (n : Nat) : List Nat := [n / 256 % 256, n % 256]

/-! ## Remaining-length codec

Decoder: `MQTTClient._recv_len` (umqttsimple.py lines 161-184) reads one
byte at a time, accumulating `n |= (b & 0x7F) << sh` and stopping when the
top bit is clear.  Modelled as structural recursion on the byte stream.

Encoder: the loop in `MQTTClient.publish` (lines 399-406) and, identically,
in `connect`:
    while sz > 0x7F: pkt[i] = (sz & 0x7F) | 0x80; sz >>= 7; i += 1
    pkt[i] = sz
-/

/-- `_recv_len` loop body over an explicit byte list; returns the decoded
value and the unconsumed remainder, or `none` if the stream runs out. -/
def recvLenAux : List Nat → Nat → Nat → Option (Nat × List Nat)
  | [], _, _ => none
  | b :: rest, n, sh =>
    let n' := n ||| ((b &&& 0x7F) <<< sh)
    if b &&& 0x80 = 0 then some (n', rest)
    else recvLenAux rest n' (sh + 7)

/-- Encoder loop from `publish`, with an explicit fuel argument so that it
is structurally recursive (each iteration shifts `sz` right by 7 bits, so
`sz` itself is always enough fuel; see `encodeRemLen_eq`). -/
def encodeRemLenAux : Nat → Nat → List Nat
  | 0, sz => [sz]
  | f + 1, sz =>
    if 0x7F < sz then ((sz &&& 0x7F) ||| 0x80) :: encodeRemLenAux f (sz >>> 7)
    else [sz]

/-- The remaining-length encoder of `publish`/`connect`. -/
def encodeRemLen (sz : Nat) : List Nat := encodeRemLenAux sz sz

/-! ## Client operations (umqttsimple.MQTTClient) -/

/-- `self.pid += 1`: the packet-identifier update used by `publish`
(qos > 0) and `subscribe`.  `self.pid` is a Python int, so the increment
is unbounded - there is no 16-bit wraparound in the source. -/
def nextPid (p : Nat) : Nat := p + 1

/-- `_recv_len` as a monadic operation: the iterated one-byte reads of the
source loop, folded over the input stream by `recvLenAux`. -/
def recvLen : M Nat := fun s =>
  match recvLenAux s.input 0 0 with
  | some (n, rest) => .ok n { s with input := rest }
  | none => .err .shortRead s

/-- `_send_str`: write the 16-bit big-endian length, then the bytes. -/
def sendStr (str : List Nat) : M Unit := do
  sockWrite (pack16 str.length)
  sockWrite str

/-- `MQTTClient.wait_msg` (umqttsimple.py lines 499-563): read one header
byte; `None` when no data is pending; `OSError(-1)` on an empty read;
consume and check the zero-length body of a PINGRESP; for any opcode whose
high nibble is not 0x30 return the opcode without reading further; fully
decode a PUBLISH, deliver it to the callback, and acknowledge QoS-1. -/
def wait_msg : M (Option Nat) := do
  match ← read1 with
  | .noData => M.pure none
  | .closedEnd => M.throw (.osError (-1))
  | .byte b =>
    if b = 0xD0 then do
      let szs ← readBytes 1
      if szs.headD 1 = 0 then M.pure none else M.throw .assertionError
    else
      if b &&& 0xF0 ≠ 0x30 then M.pure (some b)
      else do
        let sz ← recvLen
        let tl ← readBytes 2
        let topicLen := (tl.headD 0 <<< 8) ||| tl.getD 1 0
        let topic ← readBytes topicLen
        let szi : Int := (sz : Int) - (topicLen + 2)
        let (pid, szi) ←
          if b &&& 6 ≠ 0 then do
            let pb ← readBytes 2
            M.pure ((pb.headD 0 <<< 8) ||| pb.getD 1 0, szi - 2)
          else M.pure (0, szi)
        let msg ← readBytes szi.toNat
        let s ← M.getSt
        if s.hasCb then M.modifySt (fun s => { s with received := s.received ++ [(topic, msg)] })
        else M.throw .typeError
        if b &&& 6 = 2 then do
          sockWrite ([0x40, 0x02] ++ pack16 pid)
          M.pure (some b)
        else if b &&& 6 = 4 then M.throw .assertionError
        else M.pure (some b)

/-- Result of a modelled unbounded `while 1:` wait loop: either the source
loop returned, or the given fuel ran out while the loop was still
running. -/
inductive LoopRes where
  | done
  | outOfFuel
deriving Repr, DecidableEq

/-- The QoS-1 PUBACK wait loop at the end of `publish` (lines 424-434):
`pid` is the identifier assigned to this publish; on opcode 0x40 read the
remaining-length byte (asserted to be 2) and the 2-byte big-endian
identifier, returning only on a match. -/
def pubackWait (pid : Nat) : Nat → M LoopRes
  | 0 => M.pure .outOfFuel
  | f + 1 => do
    let op ← wait_msg
    if op = some 0x40 then do
      let szs ← readBytes 1
      if szs = [0x02] then do
        let pb ← readBytes 2
        let rcv := (pb.headD 0 <<< 8) ||| pb.getD 1 0
        if pid = rcv then M.pure .done
        else pubackWait pid f
      else M.throw .assertionError
    else pubackWait pid f

/-- `MQTTClient.publish` (lines 383-438).  Builds the fixed header byte
`0x30 | qos << 1 | retain`, computes the remaining length (plus 2 bytes for
the packet identifier when qos > 0), asserts it below 2,097,152, writes the
header and variable-length size, the topic, the (incremented) packet
identifier for qos > 0, and the payload; then waits for a matching PUBACK
when qos = 1, and hits `assert 0` when qos = 2. -/
def publish (topic msg : List Nat) (retain : Bool) (qos : Nat) (fuel : Nat) :
    M LoopRes := do
  let hdr := 0x30 ||| (qos <<< 1) ||| (if retain then 1 else 0)
  let sz := 2 + topic.length + msg.length + (if 0 < qos then 2 else 0)
  if sz < 2097152 then do
    sockWrite (hdr :: encodeRemLen sz)
    sendStr topic
    let pid ←
      if 0 < qos then do
        M.modifySt (fun s => { s with pid := nextPid s.pid })
        let s ← M.getSt
        sockWrite (pack16 s.pid)
        M.pure s.pid
      else M.pure 0
    sockWrite msg
    if qos = 1 then pubackWait pid fuel
    else if qos = 2 then M.throw .assertionError
    else M.pure .done
  else M.throw .assertionError

/-- The SUBACK wait loop at the end of `subscribe` (lines 474-482):
`pidBytes` are the two identifier bytes stored in the packet buffer
(`pkt[2]`, `pkt[3]`); on opcode 0x90 read 4 bytes, assert the echoed
identifier matches, and raise `MQTTException` on a 0x80 grant. -/
def subackWait (pidBytes : List Nat) : Nat → M LoopRes
  | 0 => M.pure .outOfFuel
  | f + 1 => do
    let op ← wait_msg
    if op = some 0x90 then do
      let resp ← readBytes 4
      if resp.getD 1 0 = pidBytes.headD 0 ∧ resp.getD 2 0 = pidBytes.getD 1 0 then
        if resp.getD 3 0 = 0x80 then M.throw (.mqttException 0x80)
        else M.pure .done
      else M.throw .assertionError
    else subackWait pidBytes f

/-- `MQTTClient.subscribe` (lines 440-482).  Asserts a callback is set,
increments the packet identifier, packs the packet buffer with
`ustruct.pack_into("!BH", pkt, 1, 2 + 2 + len(topic) + 1, self.pid)` -
note the single `"!B"` length byte, truncated to 8 bits by MicroPython -
writes the 4-byte buffer, the topic, and the requested-QoS byte
(`qos.to_bytes(1, "little")`), then waits for the matching SUBACK.
There is no QoS validation anywhere in this method. -/
def subscribe (topic : List Nat) (qos : Nat) (fuel : Nat) : M LoopRes := do
  let s ← M.getSt
  if s.hasCb then do
    M.modifySt (fun s => { s with pid := nextPid s.pid })
    let s ← M.getSt
    sockWrite ([0x82, (2 + 2 + topic.length + 1) % 256] ++ pack16 s.pid)
    sendStr topic
    sockWrite [qos % 256]
    subackWait (pack16 s.pid) fuel
  else M.throw .assertionError

/-- `MQTTClient.disconnect` (lines 343-353): write the DISCONNECT packet,
then close the socket.  There is no try/finally: an exception raised by
the write propagates before `sock.close()` runs. -/
def disconnect : M Unit := do
  sockWrite [0xE0, 0x00]
  M.modifySt (fun s => { s with closed := true })

/-- Wire bytes of a PUBACK packet for identifier `q`:
header 0x40, remaining length 2, 16-bit big-endian identifier. -/
def pubackBytes (q : Nat) : List Nat := 0x40 :: 0x02 :: pack16 q

/-- Concatenated wire bytes of a sequence of PUBACK packets. -/
def pubackSeq : List Nat → List Nat
  | [] => []
  | q :: qs => pubackBytes q ++ pubackSeq qs

/-- The byte sequence a qos-2 `publish` writes before reaching `assert 0`:
header `0x30 | 2 << 1 | retain`, encoded remaining length, length-prefixed
topic, packet identifier, raw payload. -/
def publishQos2Bytes (topic msg : List Nat) (retain : Bool) (pid : Nat) : List Nat :=
  (0x30 ||| (2 <<< 1) ||| (if retain then 1 else 0))
    :: encodeRemLen (2 + topic.length + msg.length + 2)
    ++ pack16 topic.length ++ topic ++ pack16 pid ++ msg

/-- The byte sequence `subscribe` writes before entering its SUBACK wait:
header 0x82, the single truncated length byte, packet identifier,
length-prefixed topic, requested-QoS byte. -/
def subscribeBytes (topic : List Nat) (qos pid : Nat) : List Nat :=
  [0x82, (2 + 2 + topic.length + 1) % 256]
    ++ pack16 pid ++ pack16 topic.length ++ topic ++ [qos % 256]

/-- A baseline client state used by the concrete theorems below:
fresh client, empty streams, healthy blocking transport, callback set. -/
def baseSt : St :=
  { pid := 0, input := [], atEof := false, blocking := true, output := [],
    closed := false, writeFails := false, hasCb := true, received := [] }

/-! ## Resilience wrapper (umqttrobust.MQTTClient)

The wrapper methods call the inherited operation inside
`try: ... except OSError: ...` loops.  What the inherited call does
depends on the network, so its outcome is abstracted as an
environment-provided sequence: each element describes one attempt.  The
wrapper's own control flow - which exceptions are caught, when
`reconnect` runs, how the backoff counter evolves, when the loop exits -
is modelled exactly.
-/

namespace Robust

/-- Outcome of one call to the inherited (umqttsimple) operation. -/
inductive NetOutcome (α : Type) where
  /-- the call returned `a`. -/
  | ok (a : α)
  /-- the call raised `OSError` (transport-level). -/
  | osErr
  /-- the call raised `MQTTException` or a malformed-packet
      `AssertionError`/`IndexError` (protocol-semantic). -/
  | protoErr
deriving Repr, DecidableEq

/-- The retry loop shared by `umqttrobust.MQTTClient.publish`
(lines 139-164) and `wait_msg` (lines 166-186):

    while True:
        try: return super().op(...)
        except OSError as e: self.log(False, e)
        self.reconnect()

`.ok none` means the modelled horizon ran out with the loop still
retrying (the source loop never gives up by itself); `.error ()` means an
uncaught exception propagated to the caller.  `reconnect` is treated as
eventually succeeding here; its own behavior is modelled separately. -/
def retryLoop {α : Type} : List (NetOutcome α) → Except Unit (Option α)
  | [] => .ok none
  | .ok a :: _ => .ok (some a)
  | .osErr :: rest => retryLoop rest
  | .protoErr :: _ => .error ()

/-- Outcome of one `super().connect(False)` attempt inside `reconnect`. -/
inductive ConnOutcome where
  | connOk
  | connErr
deriving Repr, DecidableEq

/-- `umqttrobust.MQTTClient.reconnect` (lines 113-137):

    i = 0
    while True:
        try: return super().connect(False)
        except OSError as e: self.log(True, e); i += 1; time.sleep(i)

Returns the list of sleep durations performed, `none` if the horizon ran
out while still retrying.  The counter `i` is a local variable: it starts
at 0 on every invocation of `reconnect`. -/
def reconnectSleeps : List ConnOutcome → Nat → Option (List Nat)
  | [], _ => none
  | .connOk :: _, _ => some []
  | .connErr :: rest, i => (reconnectSleeps rest (i + 1)).map (fun l => (i + 1) :: l)

/-- `[i + 1, i + 2, ..., i + k]`: the sleep sequence of `k` consecutive
connect failures starting from counter value `i`. -/
def backoffSeq : Nat → Nat → List Nat
  | _, 0 => []
  | i, k + 1 => (i + 1) :: backoffSeq (i + 1) k

/-- The robust `publish`/`wait_msg` loop with the sleeps of each inner
`reconnect` call traced.  Each element pairs the outcome of one inherited
call with the connect outcomes its subsequent `reconnect` sees. -/
def retrySleeps {α : Type} : List (NetOutcome α × List ConnOutcome) → Option (List Nat)
  | [] => none
  | (.ok _, _) :: _ => some []
  | (.protoErr, _) :: _ => none
  | (.osErr, cs) :: rest =>
    match reconnectSleeps cs 0 with
    | none => none
    | some l => (retrySleeps rest).map (fun l' => l ++ l')

/-- Outcome of one `super().wait_msg()` attempt inside `check_msg`. -/
inductive WaitOutcome where
  /-- a message with opcode `op` was handled and returned. -/
  | msg (op : Nat)
  /-- non-blocking read found no data: `wait_msg` returned `None`. -/
  | noData
  /-- `OSError` was raised. -/
  | osErr
deriving Repr, DecidableEq

/-- Observable trace of one `check_msg` call. -/
structure CheckTrace where
  /-- the value `check_msg` returns (`none` = no message). -/
  result : Option Nat
  /-- how many `wait_msg` read attempts were made. -/
  reads : Nat
  /-- how many `setblocking(False)` calls were made. -/
  setblockingCalls : Nat
  /-- how many `reconnect()` calls were made. -/
  reconnects : Nat
deriving Repr, DecidableEq

/-- `umqttrobust.MQTTClient.check_msg` (lines 188-215):

    while attempts:
        self.sock.setblocking(False)
        try: return super().wait_msg()
        except OSError as e: self.log(False, e)
        self.reconnect()
        attempts -= 1

The value returned is `none` both for a no-data read and for exhausted
attempts, as in the source (which falls off the loop without an explicit
return). -/
def checkMsg : Nat → List WaitOutcome → CheckTrace
  | 0, _ => ⟨none, 0, 0, 0⟩
  | _ + 1, [] => ⟨none, 0, 0, 0⟩
  | n + 1, o :: rest =>
    match o with
    | .msg op => ⟨some op, 1, 1, 0⟩
    | .noData => ⟨none, 1, 1, 0⟩
    | .osErr =>
      let r := checkMsg n rest
      ⟨r.result, r.reads + 1, r.setblockingCalls + 1, r.reconnects + 1⟩

end Robust

/-! # Theorems -/

/-! ## Monad and transport run lemmas -/

@[simp] theorem M.run_bind {α β} (x : M α) (f : α → M β) (s : St) :
    (x >>= f) s = match x s with
      | .ok a s' => f a s'
      | .err e s' => .err e s' := rfl

@[simp] theorem M.run_pure {α} (a : α) (s : St) :
    (Pure.pure (f := M) a) s = .ok a s := rfl

@[simp] theorem M.run_throw {α} (e : Err) (s : St) :
    (M.throw (α := α) e) s = .err e s := rfl

@[simp] theorem M.run_getSt (s : St) : M.getSt s = .ok s s := rfl

@[simp] theorem M.run_modifySt (f : St → St) (s : St) :
    M.modifySt f s = .ok () (f s) := rfl

@[simp] theorem run_sockWrite (bs : List Nat) (s : St) (h : s.writeFails = false) :
    sockWrite bs s = .ok () { s with output := s.output ++ bs } := by
  simp [sockWrite, h]

@[simp] theorem pack16_length (n : Nat) : (pack16 n).length = 2 := rfl

theorem read1_cons (s : St) (b : Nat) (rest : List Nat) (h : s.input = b :: rest) :
    read1 s = .ok (.byte b) { s with input := rest } := by
  simp [read1, h]

theorem readBytes_split (s : St) (bs rest : List Nat) (n : Nat)
    (hn : bs.length = n) (h : s.input = bs ++ rest) :
    readBytes n s = .ok bs { s with input := rest } := by
  simp only [readBytes, h]
  rw [if_pos (by simp [← hn]), List.take_left' hn, List.drop_left' hn]

/-! ## Remaining-length codec lemmas -/

theorem encodeRemLenAux_congr :
    ∀ sz f₁ f₂, sz ≤ f₁ → sz ≤ f₂ → encodeRemLenAux f₁ sz = encodeRemLenAux f₂ sz := by
  intro sz
  induction sz using Nat.strong_induction_on with
  | _ sz ih =>
    intro f₁ f₂ h₁ h₂
    match f₁, f₂ with
    | 0, 0 => rfl
    | 0, f₂ + 1 =>
      have : sz = 0 := Nat.le_zero.mp h₁
      subst this
      simp [encodeRemLenAux]
    | f₁ + 1, 0 =>
      have : sz = 0 := Nat.le_zero.mp h₂
      subst this
      simp [encodeRemLenAux]
    | f₁ + 1, f₂ + 1 =>
      simp only [encodeRemLenAux]
      by_cases h : 0x7F < sz
      · have hlt : sz >>> 7 < sz := by
          rw [Nat.shiftRight_eq_div_pow]
          exact Nat.div_lt_self (by omega) (by norm_num)
        have hle₁ : sz >>> 7 ≤ f₁ := by omega
        have hle₂ : sz >>> 7 ≤ f₂ := by omega
        rw [if_pos h, if_pos h, ih (sz >>> 7) hlt f₁ f₂ hle₁ hle₂]
      · rw [if_neg h, if_neg h]

/-- Unfolding equation matching the source loop exactly. -/
theorem encodeRemLen_eq (sz : Nat) :
    encodeRemLen sz =
      if 0x7F < sz then ((sz &&& 0x7F) ||| 0x80) :: encodeRemLen (sz >>> 7)
      else [sz] := by
  unfold encodeRemLen
  match h : sz with
  | 0 => simp [encodeRemLenAux]
  | m + 1 =>
    simp only [encodeRemLenAux]
    by_cases hc : 0x7F < m + 1
    · rw [if_pos hc, if_pos hc]
      congr 1
      have hlt : (m + 1) >>> 7 < m + 1 := by
        rw [Nat.shiftRight_eq_div_pow]
        exact Nat.div_lt_self (by omega) (by norm_num)
      exact encodeRemLenAux_congr _ _ _ (by omega) (Nat.le_refl _)
    · rw [if_neg hc, if_neg hc]

theorem and_127_eq_of_le {sz : Nat} (h : sz ≤ 0x7F) : sz &&& 0x7F = sz := by
  apply Nat.eq_of_testBit_eq
  intro i
  have h127 : (0x7F : Nat) = 2 ^ 7 - 1 := by norm_num
  rw [Nat.testBit_and, h127, Nat.testBit_two_pow_sub_one]
  by_cases hi : i < 7
  · simp [hi]
  · have : sz < 2 ^ i := lt_of_le_of_lt h (by
      calc (0x7F : Nat) < 2 ^ 7 := by norm_num
        _ ≤ 2 ^ i := Nat.pow_le_pow_right (by norm_num) (by omega))
    simp [hi, Nat.testBit_lt_two_pow this]

theorem and_128_eq_zero_of_le {sz : Nat} (h : sz ≤ 0x7F) : sz &&& 0x80 = 0 := by
  apply Nat.eq_of_testBit_eq
  intro i
  have h128 : (0x80 : Nat) = 2 ^ 7 := by norm_num
  rw [Nat.testBit_and, h128, Nat.testBit_two_pow, Nat.zero_testBit]
  by_cases hi : 7 = i
  · subst hi
    have : sz < 2 ^ 7 := by omega
    simp [Nat.testBit_lt_two_pow this]
  · simp [hi]

theorem contByte_and_127 (sz : Nat) :
    ((sz &&& 0x7F) ||| 0x80) &&& 0x7F = sz &&& 0x7F := by
  apply Nat.eq_of_testBit_eq
  intro i
  have h127 : (0x7F : Nat) = 2 ^ 7 - 1 := by norm_num
  have h128 : (0x80 : Nat) = 2 ^ 7 := by norm_num
  rw [Nat.testBit_and, Nat.testBit_or, Nat.testBit_and, h127, h128,
    Nat.testBit_two_pow_sub_one, Nat.testBit_two_pow]
  by_cases hi : i < 7
  · have : ¬ (7 = i) := by omega
    simp [hi, this]
  · simp [hi]

theorem contByte_and_128_ne_zero (sz : Nat) :
    ¬ (((sz &&& 0x7F) ||| 0x80) &&& 0x80 = 0) := by
  intro hcontra
  have h7 : (((sz &&& 0x7F) ||| 0x80) &&& 0x80).testBit 7 = true := by
    have h128 : (0x80 : Nat) = 2 ^ 7 := by norm_num
    rw [Nat.testBit_and, Nat.testBit_or, h128, Nat.testBit_two_pow_self]
    simp
  rw [hcontra, Nat.zero_testBit] at h7
  exact Bool.false_ne_true h7

theorem or_shift_merge (n sz sh : Nat) :
    (n ||| ((sz &&& 0x7F) <<< sh)) ||| ((sz >>> 7) <<< (sh + 7)) =
      n ||| (sz <<< sh) := by
  apply Nat.eq_of_testBit_eq
  intro i
  have h127 : (0x7F : Nat) = 2 ^ 7 - 1 := by norm_num
  rw [Nat.testBit_or, Nat.testBit_or, Nat.testBit_or, Nat.testBit_shiftLeft,
    Nat.testBit_shiftLeft, Nat.testBit_shiftLeft, Nat.testBit_and, h127,
    Nat.testBit_two_pow_sub_one, Nat.testBit_shiftRight]
  by_cases h1 : sh ≤ i
  · by_cases h2 : sh + 7 ≤ i
    · have e1 : ¬ (i - sh < 7) := by omega
      have e2 : 7 + (i - (sh + 7)) = i - sh := by omega
      simp [h1, h2, e1, e2, Bool.or_assoc]
    · have e1 : i - sh < 7 := by omega
      simp [h1, h2, e1]
  · have h2 : ¬ (sh + 7 ≤ i) := by omega
    simp [h1, h2]

/-- Round-trip invariant: decoding the encoder's output (followed by any
remainder) from an accumulator `(n, sh)` yields `n ||| (sz <<< sh)`. -/
theorem recvLenAux_encode (sz : Nat) : ∀ rest n sh,
    recvLenAux (encodeRemLen sz ++ rest) n sh = some (n ||| (sz <<< sh), rest) := by
  induction sz using Nat.strong_induction_on with
  | _ sz ih =>
    intro rest n sh
    rw [encodeRemLen_eq]
    by_cases h : 0x7F < sz
    · rw [if_pos h]
      have hlt : sz >>> 7 < sz := by
        rw [Nat.shiftRight_eq_div_pow]
        exact Nat.div_lt_self (by omega) (by norm_num)
      simp only [List.cons_append, recvLenAux, List.append_eq]
      rw [if_neg (contByte_and_128_ne_zero sz), contByte_and_127,
        ih (sz >>> 7) hlt, or_shift_merge]
    · rw [if_neg h]
      simp only [List.cons_append, List.nil_append, recvLenAux, List.append_eq]
      rw [if_pos (and_128_eq_zero_of_le (by omega)),
        and_127_eq_of_le (by omega)]

/-- Claim C1: remaining-length round-trip.  For every `n < 2,097,152`, the
decoder `_recv_len` applied to the byte sequence produced by the encoder
loop in `publish` returns `n` (consuming exactly those bytes). -/
theorem c1_remaining_length_roundtrip (n : Nat) (_h : n < 2097152) :
    recvLenAux (encodeRemLen n) 0 0 = some (n, []) := by
  have := recvLenAux_encode n [] 0 0
  simpa using this

theorem c1_remaining_length_roundtrip_witness :
    200000 < 2097152 ∧ recvLenAux (encodeRemLen 200000) 0 0 = some (200000, []) :=
  ⟨by decide, c1_remaining_length_roundtrip 200000 (by decide)⟩

/-! ## wait_msg behavior on non-PUBLISH packets -/

theorem readBytes_one_cons (s : St) (a : Nat) (rest : List Nat) (h : s.input = a :: rest) :
    readBytes 1 s = .ok [a] { s with input := rest } :=
  readBytes_split s [a] rest 1 rfl (by simpa using h)

theorem readBytes_two_cons (s : St) (a b : Nat) (rest : List Nat)
    (h : s.input = a :: b :: rest) :
    readBytes 2 s = .ok [a, b] { s with input := rest } :=
  readBytes_split s [a, b] rest 2 rfl (by simpa using h)

/-- On a stream whose next byte is neither 0xD0 (PINGRESP) nor has high
nibble 0x30 (PUBLISH), `wait_msg` consumes exactly that one byte and
returns it; the packet's remaining-length field and body stay unread. -/
theorem wait_msg_returns_op (s : St) (b : Nat) (rest : List Nat)
    (hin : s.input = b :: rest) (h1 : b ≠ 0xD0) (h2 : b &&& 0xF0 ≠ 0x30) :
    wait_msg s = .ok (some b) { s with input := rest } := by
  simp only [wait_msg, M.run_bind, read1_cons s b rest hin]
  rw [if_neg h1, if_pos h2]
  rfl

/-- Claim C9: for every inbound packet whose type is neither PUBLISH
(high nibble 0x30) nor PINGRESP (0xD0), `wait_msg` returns the first
header byte without reading the packet's remaining-length field or body
from the transport; the body (e.g. of a PUBACK or SUBACK) is left on the
stream, to be consumed only by a publish/subscribe loop that follows. -/
theorem c9_non_publish_returns_header_only (s : St) (b : Nat) (rest : List Nat)
    (hin : s.input = b :: rest) (hping : b ≠ 0xD0) (hpub : b &&& 0xF0 ≠ 0x30) :
    wait_msg s = .ok (some b) { s with input := rest } :=
  wait_msg_returns_op s b rest hin hping hpub

theorem c9_non_publish_returns_header_only_witness :
    wait_msg { baseSt with input := [0x40, 0x02, 0x00, 0x05] }
      = .ok (some 0x40) { baseSt with input := [0x02, 0x00, 0x05] } :=
  c9_non_publish_returns_header_only _ 0x40 [0x02, 0x00, 0x05] rfl (by decide) (by decide)

/-! ## Claim C5: disconnect -/

/-- Counterexample to claim C5: on a transport whose write raises, the
`OSError` propagates out of `disconnect` and `sock.close()` is never
executed - the final state still has `closed = false`, so `disconnect`
does not end with the transport closed when the write fails. -/
theorem c5_counterexample :
    disconnect { baseSt with writeFails := true }
      = .err (.osError 104) { baseSt with writeFails := true }
    ∧ ({ baseSt with writeFails := true } : St).closed = false := by
  exact ⟨rfl, rfl⟩

/-- Claim C5 amended: `disconnect` writes the DISCONNECT packet and then
closes the transport when the write succeeds; when the write fails with a
transport error, the error propagates and the transport is NOT closed
(the source has no try/finally around the write). -/
theorem c5_amended_disconnect (s : St) :
    (s.writeFails = false →
      disconnect s = .ok () { s with output := s.output ++ [0xE0, 0x00], closed := true })
    ∧ (s.writeFails = true → disconnect s = .err (.osError 104) s ∧ s.closed = s.closed) := by
  constructor
  · intro h
    simp [disconnect, sockWrite, h]
  · intro h
    refine ⟨?_, rfl⟩
    simp [disconnect, sockWrite, h]

theorem c5_amended_disconnect_witness :
    disconnect baseSt = .ok () { baseSt with output := [0xE0, 0x00], closed := true }
    ∧ disconnect { baseSt with writeFails := true }
        = .err (.osError 104) { baseSt with writeFails := true } :=
  ⟨(c5_amended_disconnect baseSt).1 rfl,
   ((c5_amended_disconnect { baseSt with writeFails := true }).2 rfl).1⟩

/-! ## Claim C3: packet identifier -/

/-- Counterexample to claim C3: the packet identifier counter is a Python
int incremented without wraparound.  Starting from `pid = 65535`, a QoS-1
publish allocates identifier 65536 - not 1 and not a 16-bit value - and
the two identifier bytes placed on the wire are `0x00 0x00` (MicroPython's
`ustruct.pack("!H", ...)` truncates), i.e. wire identifier 0. -/
theorem c3_counterexample :
    nextPid 65535 = 65536 ∧ (65536 : Nat) ≠ 1 ∧ ¬ (65536 < 65536)
    ∧ (publish [116] [] false 1 1 { baseSt with pid := 65535, atEof := true }).stOf.pid = 65536
    ∧ (publish [116] [] false 1 1 { baseSt with pid := 65535, atEof := true }).stOf.output
        = [0x32, 5, 0, 1, 116, 0, 0] := by
  refine ⟨rfl, by decide, by decide, rfl, rfl⟩

/-- Claim C3 amended: identifiers are allocated by an unbounded increment
(`self.pid += 1`).  After `k` allocations from a fresh client the counter
is exactly `k`, so every allocated identifier is nonzero and no identifier
is ever reallocated; but there is no 16-bit wraparound: after 65535 the
next identifier is 65536, whose 2-byte big-endian wire encoding is
`0x00 0x00`. -/
theorem c3_amended_pid_counter (k : Nat) (hk : 0 < k) :
    nextPid^[k] 0 = k ∧ nextPid^[k] 0 ≠ 0
    ∧ (∀ j, j < k → nextPid^[j] 0 ≠ nextPid^[k] 0)
    ∧ nextPid 65535 = 65536 ∧ pack16 (nextPid 65535) = [0, 0] := by
  have hit : ∀ m, nextPid^[m] 0 = m := by
    intro m
    induction m with
    | zero => simp
    | succ m ih => rw [Function.iterate_succ_apply', ih, nextPid]
  refine ⟨hit k, by rw [hit k]; omega, ?_, rfl, by decide⟩
  intro j hj
  rw [hit j, hit k]
  omega

theorem c3_amended_pid_counter_witness :
    0 < 3 ∧ nextPid^[3] 0 = 3 ∧ nextPid^[2] 0 ≠ nextPid^[3] 0
    ∧ nextPid 65535 = 65536 :=
  ⟨by decide, (c3_amended_pid_counter 3 (by decide)).1,
   (c3_amended_pid_counter 3 (by decide)).2.2.1 2 (by decide),
   (c3_amended_pid_counter 3 (by decide)).2.2.2.1⟩

/-! ## Claim C2: QoS 2 -/

/-- Counterexample to claim C2: `publish` with qos=2 writes the complete
8-byte PUBLISH packet to the transport BEFORE failing (`assert 0` sits at
the end of the method), and `subscribe` with qos=2 does not fail at all -
it sends the SUBSCRIBE packet (requested-QoS byte 2) and returns normally
once a granting SUBACK arrives. -/
theorem c2_counterexample :
    (publish [116] [109] false 2 5 baseSt).errOf? = some .assertionError
    ∧ (publish [116] [109] false 2 5 baseSt).stOf.output
        = [0x34, 6, 0, 1, 116, 0, 1, 109]
    ∧ (subscribe [116] 2 1 { baseSt with input := [0x90, 3, 0, 1, 0] }).errOf? = none
    ∧ (subscribe [116] 2 1 { baseSt with input := [0x90, 3, 0, 1, 0] }).stOf.output
        = [0x82, 6, 0, 1, 0, 1, 116, 2] := by
  exact ⟨rfl, rfl, rfl, rfl⟩

/-- Claim C2 amended: requesting QoS 2 on `publish` fails with an
assertion error only AFTER the complete PUBLISH packet (header,
remaining length, topic, packet identifier, payload) has been written to
the transport; `subscribe` performs no QoS validation at all: with qos=2
it writes the full SUBSCRIBE packet with requested-QoS byte 2 and
proceeds to wait for the SUBACK without raising. -/
theorem c2_amended_qos2 (topic msg : List Nat) (retain : Bool) (f : Nat) (s : St)
    (hw : s.writeFails = false) (hcb : s.hasCb = true)
    (hsz : 2 + topic.length + msg.length + 2 < 2097152) :
    publish topic msg retain 2 f s
      = .err .assertionError
          { s with pid := s.pid + 1, output := s.output ++ publishQos2Bytes topic msg retain (s.pid + 1) }
    ∧ subscribe topic 2 0 s
      = .ok .outOfFuel
          { s with pid := s.pid + 1, output := s.output ++ subscribeBytes topic 2 (s.pid + 1) } := by
  constructor
  · simp [publish, publishQos2Bytes, sendStr, nextPid, sockWrite, M.pure, M.bind, hw, hsz,
      List.append_assoc]
  · simp [subscribe, subscribeBytes, subackWait, sendStr, nextPid, sockWrite, M.pure, M.bind,
      hw, hcb, List.append_assoc]

theorem c2_amended_qos2_witness :
    publish [116] [109] false 2 5 baseSt
      = .err .assertionError { baseSt with pid := 1, output := [0x34, 6, 0, 1, 116, 0, 1, 109] }
    ∧ subscribe [116] 2 0 baseSt
      = .ok .outOfFuel { baseSt with pid := 1, output := [0x82, 6, 0, 1, 0, 1, 116, 2] } :=
  c2_amended_qos2 [116] [109] false 5 baseSt rfl rfl (by decide)

/-! ## Claim C10: the SUBSCRIBE length byte -/

set_option maxRecDepth 8000 in
/-- Counterexample to claim C10's failure clause: with a 251-byte topic
the value `5 + len(topic) = 256` does not fit the single `"!B"` length
byte, but the encoding step does NOT fail - MicroPython's
`ustruct.pack_into` silently truncates, emitting length byte 0 (whose top
bit is, moreover, clear, against the claim's top-bit clause); `subscribe`
proceeds to write the whole malformed frame. -/
theorem c10_counterexample :
    (subscribe (List.replicate 251 97) 0 0 baseSt).errOf? = none
    ∧ (subscribe (List.replicate 251 97) 0 0 baseSt).stOf.output.getD 1 0 = 0
    ∧ 2 + 2 + (List.replicate 251 97).length + 1 = 256
    ∧ ¬ 128 ≤ ((2 + 2 + (List.replicate 251 97).length + 1) % 256) := by
  exact ⟨by decide, by decide, by decide, by decide⟩

/-- Claim C10 amended: `subscribe` always encodes the SUBSCRIBE packet's
remaining-length field as exactly one byte holding
`(5 + len(topic)) mod 256`, never the multi-byte continuation encoding
used by `publish` and `connect`.  For topics of 123..250 bytes that byte
is `5 + len(topic)` itself with its top bit set, so the frame is not a
valid MQTT variable-length encoding; for topics longer than 250 bytes the
value does not fit one byte and MicroPython's `ustruct.pack_into`
truncates it modulo 256 without raising, so the frame is silently
corrupt (and `subscribe` itself does not fail). -/
theorem c10_amended_subscribe_length_byte (topic : List Nat) (qos : Nat) (s : St)
    (hcb : s.hasCb = true) (hw : s.writeFails = false) :
    subscribe topic qos 0 s
      = .ok .outOfFuel
          { s with pid := s.pid + 1, output := s.output ++ subscribeBytes topic qos (s.pid + 1) }
    ∧ (122 < topic.length → topic.length ≤ 250 →
        (2 + 2 + topic.length + 1) % 256 = 2 + 2 + topic.length + 1
          ∧ 128 ≤ (2 + 2 + topic.length + 1) % 256)
    ∧ (250 < topic.length →
        (2 + 2 + topic.length + 1) % 256 ≠ 2 + 2 + topic.length + 1) := by
  refine ⟨?_, ?_, ?_⟩
  · simp [subscribe, subscribeBytes, subackWait, sendStr, nextPid, sockWrite, M.pure, M.bind,
      hw, hcb, List.append_assoc]
  · intro h1 h2
    constructor
    · omega
    · omega
  · intro h
    omega

theorem c10_amended_subscribe_length_byte_witness :
    subscribe [116] 0 0 baseSt
      = .ok .outOfFuel { baseSt with pid := 1, output := [0x82, 6, 0, 1, 0, 1, 116, 0] } :=
  (c10_amended_subscribe_length_byte [116] 0 baseSt rfl rfl).1

/-! ## Claim C4: the QoS-1 PUBACK wait loop -/

theorem be16_bytes (q : Nat) : ((q / 256 % 256) <<< 8) ||| q % 256 = q % 65536 := by
  have h256 : (256 : Nat) = 2 ^ 8 := by norm_num
  have h65536 : (65536 : Nat) = 2 ^ 16 := by norm_num
  apply Nat.eq_of_testBit_eq
  intro i
  rw [h256, h65536, Nat.testBit_or, Nat.testBit_shiftLeft, Nat.testBit_mod_two_pow,
    Nat.testBit_mod_two_pow, Nat.testBit_mod_two_pow]
  rw [show q / 2 ^ 8 = q >>> 8 from (Nat.shiftRight_eq_div_pow q 8).symm,
    Nat.testBit_shiftRight]
  by_cases h1 : i < 8
  · have h2 : ¬ (8 ≤ i) := by omega
    have h3 : i < 16 := by omega
    simp [h1, h2, h3]
  · by_cases h3 : i < 16
    · have h2 : 8 ≤ i := by omega
      have h4 : i - 8 < 8 := by omega
      have h5 : 8 + (i - 8) = i := by omega
      simp [h1, h2, h3, h4, h5]
    · have h2 : 8 ≤ i := by omega
      have h4 : ¬ (i - 8 < 8) := by omega
      simp [h1, h3, h4]

/-- One iteration of the PUBACK wait loop on a stream headed by a PUBACK
for identifier `q`: the 4 bytes are consumed; the loop returns if the
(wire, 16-bit) identifier matches and continues otherwise. -/
theorem pubackWait_step (pid q f : Nat) (s : St) (rest : List Nat)
    (hin : s.input = pubackBytes q ++ rest) :
    pubackWait pid (f + 1) s =
      if pid = q % 65536 then .ok .done { s with input := rest }
      else pubackWait pid f { s with input := rest } := by
  have h0 : s.input = 0x40 :: (0x02 :: (q / 256 % 256) :: (q % 256) :: rest) := by
    simpa [pubackBytes, pack16] using hin
  have hwm := wait_msg_returns_op s 0x40 _ h0 (by decide) (by decide)
  simp only [pubackWait, M.run_bind, hwm]
  simp only [if_true]
  simp only [M.run_bind,
    readBytes_one_cons { s with input := 0x02 :: (q / 256 % 256) :: (q % 256) :: rest }
      0x02 ((q / 256 % 256) :: (q % 256) :: rest) rfl]
  simp only [if_true]
  simp only [M.run_bind,
    readBytes_two_cons { s with input := (q / 256 % 256) :: (q % 256) :: rest }
      (q / 256 % 256) (q % 256) rest rfl]
  simp only [List.headD, List.getD, List.get?, Option.getD_some, be16_bytes]
  by_cases hc : pid = q % 65536
  · rw [if_pos hc, if_pos hc]
    rfl
  · rw [if_neg hc, if_neg hc]

/-- Consuming a run of mismatched PUBACKs followed by the matching one:
the loop returns exactly at the matching PUBACK. -/
theorem pubackWait_consume (pid : Nat) : ∀ (qs : List Nat) (rest : List Nat) (s : St),
    pid < 65536 → (∀ q ∈ qs, q % 65536 ≠ pid) →
    s.input = pubackSeq qs ++ pubackBytes pid ++ rest →
    pubackWait pid (qs.length + 1) s = .ok .done { s with input := rest } := by
  intro qs
  induction qs with
  | nil =>
    intro rest s hpid _ hin
    have h0 : s.input = pubackBytes pid ++ rest := by
      simpa [pubackSeq] using hin
    rw [List.length_nil, Nat.zero_add, pubackWait_step pid pid 0 s rest h0,
      if_pos (Nat.mod_eq_of_lt hpid).symm]
  | cons q qs ih =>
    intro rest s hpid hqs hin
    have h0 : s.input = pubackBytes q ++ (pubackSeq qs ++ pubackBytes pid ++ rest) := by
      simpa [pubackSeq, List.append_assoc] using hin
    have hq : q % 65536 ≠ pid := hqs q (List.mem_cons_self q qs)
    rw [List.length_cons,
      pubackWait_step pid q (qs.length + 1) s _ h0, if_neg (fun hcontra => hq hcontra.symm)]
    exact ih rest _ hpid (fun p hp => hqs p (List.mem_cons_of_mem q hp)) rfl

/-- Claim C4: a qos-1 publish's wait loop returns successfully exactly
when a PUBACK carrying its own identifier has been read: on a stream of
PUBACKs for other identifiers followed by the matching one, every
mismatched PUBACK is consumed without ending the wait (first conjunct
consumes the whole sequence, returning only at the matching PUBACK; the
second conjunct states the single-step behavior on a mismatch: the
pending publish is not cleared and the loop keeps reading). -/
theorem c4_qos1_waits_for_matching_puback (pid : Nat) (qs : List Nat) (rest : List Nat)
    (s : St) (hpid : pid < 65536) (hqs : ∀ q ∈ qs, q % 65536 ≠ pid)
    (hin : s.input = pubackSeq qs ++ pubackBytes pid ++ rest) :
    pubackWait pid (qs.length + 1) s = .ok .done { s with input := rest }
    ∧ ∀ (q f : Nat) (rest' : List Nat) (s' : St), q % 65536 ≠ pid →
        s'.input = pubackBytes q ++ rest' →
        pubackWait pid (f + 1) s' = pubackWait pid f { s' with input := rest' } := by
  constructor
  · exact pubackWait_consume pid qs rest s hpid hqs hin
  · intro q f rest' s' hq hin'
    rw [pubackWait_step pid q f s' rest' hin', if_neg (fun hcontra => hq hcontra.symm)]

theorem c4_qos1_waits_for_matching_puback_witness :
    pubackWait 7 2 { baseSt with input := pubackSeq [5] ++ pubackBytes 7 ++ [9] }
      = .ok .done { baseSt with input := [9] }
    ∧ pubackWait 7 1 { baseSt with input := pubackBytes 5 }
      = pubackWait 7 0 { baseSt with input := ([] : List Nat) } :=
  ⟨(c4_qos1_waits_for_matching_puback 7 [5] [9] _ (by decide) (by decide) rfl).1,
   (c4_qos1_waits_for_matching_puback 7 [5] [9]
      { baseSt with input := pubackSeq [5] ++ pubackBytes 7 ++ [9] }
      (by decide) (by decide) rfl).2 5 0 [] _ (by decide) rfl⟩

/-! ## Claim C6: the resilience wrapper's retry policy -/

/-- A successful sleep-free reconnect sits between a caught transport
error and the next attempt. -/
theorem retrySleeps_osErr_connOk {α : Type} (rest : List (Robust.NetOutcome α × List Robust.ConnOutcome)) :
    Robust.retrySleeps ((.osErr, [.connOk]) :: rest) = Robust.retrySleeps rest := by
  simp only [Robust.retrySleeps, Robust.reconnectSleeps]
  cases Robust.retrySleeps rest <;> simp

/-- Claim C6: in the wrapped `publish`/`wait_msg` loops, every
transport-level `OSError` is caught and the operation is retried (with a
reconnect in between) until it succeeds, for any number of consecutive
transport errors; a protocol-semantic error (`MQTTException`, a
malformed-packet assertion) is never caught and propagates to the caller;
and no run consisting solely of transport errors ever makes the loop give
up or raise (it is still retrying when the modelled horizon ends). -/
theorem c6_transport_retried_protocol_propagates (α : Type) (k : Nat) (a : α)
    (rest : List (Robust.NetOutcome α)) :
    Robust.retryLoop (List.replicate k .osErr ++ .ok a :: rest) = .ok (some a)
    ∧ Robust.retryLoop (List.replicate k .osErr ++ .protoErr :: rest) = .error ()
    ∧ Robust.retryLoop (List.replicate k (.osErr : Robust.NetOutcome α)) = .ok none
    ∧ Robust.retrySleeps ((.osErr, [.connOk]) :: ([] : List (Robust.NetOutcome α × List Robust.ConnOutcome)))
        = Robust.retrySleeps ([] : List (Robust.NetOutcome α × List Robust.ConnOutcome)) := by
  refine ⟨?_, ?_, ?_, retrySleeps_osErr_connOk []⟩
  · induction k with
    | zero => simp [Robust.retryLoop]
    | succ k ih => simpa [List.replicate, Robust.retryLoop] using ih
  · induction k with
    | zero => simp [Robust.retryLoop]
    | succ k ih => simpa [List.replicate, Robust.retryLoop] using ih
  · induction k with
    | zero => simp [Robust.retryLoop]
    | succ k ih => simpa [List.replicate, Robust.retryLoop] using ih

/-! ## Claim C7: reconnect backoff -/

theorem reconnectSleeps_run (tail : List Robust.ConnOutcome) :
    ∀ (k i : Nat),
      Robust.reconnectSleeps (List.replicate k .connErr ++ .connOk :: tail) i
        = some (Robust.backoffSeq i k) := by
  intro k
  induction k with
  | zero => intro i; simp [Robust.reconnectSleeps, Robust.backoffSeq]
  | succ k ih =>
    intro i
    simp only [List.replicate, List.cons_append, List.append_eq, Robust.reconnectSleeps]
    rw [ih (i + 1)]
    simp [Robust.backoffSeq]

/-- Counterexample to claim C7's reset clause: two failure cycles of the
wrapped publish with NO successful protocol-level exchange in between
(the publish attempt after the first reconnect fails again immediately).
Under the claim the second cycle's backoff would continue from the
accumulated failure counter (sleep 2 seconds); the code sleeps 1 second
again, because the counter is a local variable of `reconnect` that
restarts at zero on every invocation - i.e. it is discarded on mere TCP
connect success. -/
theorem c7_counterexample :
    Robust.retrySleeps
        [((.osErr : Robust.NetOutcome Unit), [.connErr, .connOk]),
         (.osErr, [.connErr, .connOk]), (.ok (), [])]
      = some [1, 1]
    ∧ ([1, 1] : List Nat) ≠ [1, 2] := by
  exact ⟨rfl, by decide⟩

/-- Claim C7 amended: within one `reconnect` invocation the wrapper
sleeps `j` seconds after the `j`-th consecutive failed connect attempt
(so a run of `k` failures before success sleeps `1, 2, ..., k` - linear
backoff with no cap); but the failure counter is local to each
`reconnect` call: it restarts at zero whenever `reconnect` is entered, so
a successful TCP connect alone discards it, and two failure cycles with
no successful protocol exchange in between each back off starting from 1
second again. -/
theorem c7_amended_backoff_is_local (k k' : Nat) (tail : List Robust.ConnOutcome) :
    Robust.reconnectSleeps (List.replicate k .connErr ++ .connOk :: tail) 0
        = some (Robust.backoffSeq 0 k)
    ∧ Robust.retrySleeps
        [((.osErr : Robust.NetOutcome Unit), List.replicate k .connErr ++ [.connOk]),
         (.osErr, List.replicate k' .connErr ++ [.connOk]), (.ok (), [])]
        = some (Robust.backoffSeq 0 k ++ Robust.backoffSeq 0 k') := by
  constructor
  · exact reconnectSleeps_run tail k 0
  · simp [Robust.retrySleeps, reconnectSleeps_run [] k 0, reconnectSleeps_run [] k' 0]

/-! ## Claim C8: check_msg with bounded attempts -/

theorem checkMsg_reads_le : ∀ (n : Nat) (outs : List Robust.WaitOutcome),
    (Robust.checkMsg n outs).reads ≤ n := by
  intro n
  induction n with
  | zero => intro outs; simp [Robust.checkMsg]
  | succ n ih =>
    intro outs
    match outs with
    | [] => simp [Robust.checkMsg]
    | o :: rest =>
      match o with
      | .msg op => simp [Robust.checkMsg]
      | .noData => simp [Robust.checkMsg]
      | .osErr =>
        simp only [Robust.checkMsg]
        have := ih rest
        omega

theorem checkMsg_setblocking_eq_reads : ∀ (n : Nat) (outs : List Robust.WaitOutcome),
    (Robust.checkMsg n outs).setblockingCalls = (Robust.checkMsg n outs).reads := by
  intro n
  induction n with
  | zero => intro outs; simp [Robust.checkMsg]
  | succ n ih =>
    intro outs
    match outs with
    | [] => simp [Robust.checkMsg]
    | o :: rest =>
      match o with
      | .msg op => simp [Robust.checkMsg]
      | .noData => simp [Robust.checkMsg]
      | .osErr =>
        simp only [Robust.checkMsg]
        have := ih rest
        omega

/-- Claim C8: `check_msg` with `attempts = 2` sets the socket
non-blocking before every read (`setblockingCalls = reads`), performs at
most 2 reads whatever the outcomes, and after exactly 2 reads that fail
with `OSError` - reconnecting after each - it returns the no-message
result `none` instead of blocking further. -/
theorem c8_check_msg_two_attempts (outs : List Robust.WaitOutcome) :
    Robust.checkMsg 2 [.osErr, .osErr] = ⟨none, 2, 2, 2⟩
    ∧ (Robust.checkMsg 2 outs).reads ≤ 2
    ∧ (Robust.checkMsg 2 outs).setblockingCalls = (Robust.checkMsg 2 outs).reads := by
  exact ⟨rfl, checkMsg_reads_le 2 outs, checkMsg_setblocking_eq_reads 2 outs⟩

end UMqtt
